import Mathlib

/-!
Verification of the pybm git worktree wrapper (src/pybm/git.py) against its
natural-language specification.

The development shallowly embeds the wrapper: pure helpers become Lean
functions, Python exceptions become an `Except Err` result, and the external
world (the installed git version, the subprocess runner, the filesystem
queries and the ref-resolution collaborator) becomes an explicit `GitEnv`
record of pure functions.  External invocations are recorded as a trace of
token lists, so that statements of the form "the external process is never
invoked" are expressible.

String helpers that the Python code takes from its standard library
(str.split, str.splitlines, str.replace, pathlib.Path.name, substring tests)
are implemented structurally over `List Char` so that every definition
evaluates inside the kernel.
-/

/-- Splits a character list at every occurrence of `c`, keeping empty pieces
(the semantics of Python `str.split(sep)` with an explicit separator). -/
def splitOnChar (c : Char) : List Char → List (List Char)
  | [] => [[]]
  | x :: xs =>
    let r := splitOnChar c xs
    if x = c then [] :: r
    else
      match r with
      | [] => [[x]]
      | h :: t => (x :: h) :: t

/-- `strSplit c s` is Python `s.split(c)` for a one-character separator. -/
def strSplit (c : Char) (s : String) : List String :=
  (splitOnChar c s.data).map (fun l => String.mk l)

/-- Python `sep.flatten(parts)`. -/
def joinWith (sep : String) : List String → String
  | [] => ""
  | [x] => x
  | x :: y :: xs => x ++ sep ++ joinWith sep (y :: xs)

/-- Python `s.startswith("-")`. -/
def strStartsWithDash (s : String) : Bool :=
  match s.data with
  | [] => false
  | c :: _ => c = '-'

/-- Python `s.replace("/", "-")`: every slash replaced by a dash. -/
def escapeSlash (s : String) : String :=
  joinWith "-" (strSplit '/' s)

/-- The last whitespace-delimited token of a line: Python `line.split()[-1]`.
Python `str.split()` with no argument splits on whitespace runs and drops
empty pieces; the porcelain lines this is applied to contain only spaces as
whitespace.  (Python raises IndexError on a line with no token at all; such
lines do not occur after the non-empty-line filter in `list_worktrees`, and
here the case falls back to the empty string.) -/
def lastToken (s : String) : String :=
  String.mk (((splitOnChar ' ' s.data).filter (fun l => l ≠ [])).getLastD [])

/-- Python `pathlib.Path(s).name`: the final path component, after dropping
empty components and single-dot components (pathlib's normalization). -/
def pathName (s : String) : String :=
  String.mk (((splitOnChar '/' s.data).filter
    (fun l => l ≠ [] ∧ l ≠ ['.'])).getLastD [])

/-- Python `s.split("/")[-1]`: the final slash-delimited segment, empty
pieces kept. -/
def lastSegment (s : String) : String :=
  String.mk ((splitOnChar '/' s.data).getLastD [])

/-- Python `s.splitlines()` restricted to the newline character: like
splitting on every newline, except that a trailing newline does not produce
a final empty piece. -/
def splitlines (s : String) : List String :=
  let parts := (splitOnChar '\n' s.data).map (fun l => String.mk l)
  if parts.getLastD "" = "" then parts.dropLast else parts

/-- Does `a` occur at the head of `b`? -/
def leadMatch : List Char → List Char → Bool
  | [], _ => true
  | _ :: _, [] => false
  | a :: as, b :: bs => a = b && leadMatch as bs

/-- Sublist occurrence test used for Python `needle in hay`. -/
def subListB (needle : List Char) : List Char → Bool
  | [] => leadMatch needle []
  | b :: bs => leadMatch needle (b :: bs) || subListB needle bs

/-- Python `needle in hay` on strings (substring containment). -/
def containsB (hay needle : String) : Bool :=
  subListB needle.data hay.data

/-- A single-quote character, used to render Python `repr` of a string. -/
def squote : String := String.mk [Char.ofNat 39]

/-- Python `repr(s)` as it appears in the wrapper's messages: the string in
single quotes. -/
def pyrepr (s : String) : String := squote ++ s ++ squote

/-- Association-list lookup with decidable key equality (Python dict read
access `d[k]` and membership `k in d`). -/
def alookup {κ α : Type} [DecidableEq κ] (k : κ) : List (κ × α) → Option α
  | [] => none
  | (k2, v) :: rest => if k = k2 then some v else alookup k rest

/-- (major, minor, micro) as in git.py line 18. -/
abbrev VersionTuple := Nat × Nat × Nat

/-- Strict lexicographic comparison of version tuples: the semantics of
Python tuple `<` on 3-tuples of integers. -/
def vltb (a b : VersionTuple) : Bool :=
  decide (a.1 < b.1 ∨ (a.1 = b.1 ∧ (a.2.1 < b.2.1 ∨ (a.2.1 = b.2.1 ∧ a.2.2 < b.2.2))))

/-- The larger of two version tuples under `vltb`. -/
def vmax (a b : VersionTuple) : VersionTuple :=
  if vltb a b then b else a

/-- Modelled from the spec: `version_string` lives in pybm/util/common.py,
which is not part of the sources; the spec requires "the exact minimum
version string" of the (major, minor, micro) tuple, rendered with dots. -/
def version_string (v : VersionTuple) : String :=
  joinWith "." [toString v.1, toString v.2.1, toString v.2.2]

/-- The exceptions that can escape the wrapper.  `gitError` is pybm's
GitError (also raised for compatibility violations and duplicates);
`keyError`/`valueError`/`assertionError` are the corresponding untyped
Python exceptions; `parseError` tags a listing group that does not decompose
into exactly three data items (spec section 7, ParseError). -/
inductive Err where
  | gitError (msg : String)
  | keyError
  | valueError
  | assertionError (msg : String)
  | parseError
deriving DecidableEq

/-- A Python keyword-argument value as fed to `parse_flags`: `none` is
Python `None`, `some b` a boolean. -/
abbrev Value := Option Bool

/-- Equality of fallible results is decidable, so that concrete runs of the
embedded operations can be evaluated inside proofs. -/
instance {ε α : Type} [DecidableEq ε] [DecidableEq α] : DecidableEq (Except ε α) := fun
  | .error e1, .error e2 =>
    if h : e1 = e2 then .isTrue (by rw [h])
    else .isFalse (fun hc => h (by injection hc))
  | .error _, .ok _ => .isFalse (fun hc => Except.noConfusion hc)
  | .ok _, .error _ => .isFalse (fun hc => Except.noConfusion hc)
  | .ok a1, .ok a2 =>
    if h : a1 = a2 then .isTrue (by rw [h])
    else .isFalse (fun hc => h (by injection hc))

/-- Worktree attribute names accepted by `get_worktree_by_attr` (the keys of
its `attr_checks` dict; any other string fails its assert, so the legal
attributes form this closed set). -/
inductive WtAttr where
  | root
  | commit
  | branch
  | tag
deriving DecidableEq

/-- The attribute's name as the Python string it is written as. -/
def attrToString : WtAttr → String
  | .root => "root"
  | .commit => "commit"
  | .branch => "branch"
  | .tag => "tag"

/-- Modelled from the spec: the `Worktree` record lives in pybm/specs.py,
which is not part of the sources.  Per spec section 3 and 4.3 it carries the
three data items of one porcelain listing group: the root path, the HEAD
commit id, and the current branch/ref label (the ref label is what both the
`branch` and the `tag` attribute predicates examine). -/
structure Worktree where
  root : String
  commit : String
  branch : String
deriving DecidableEq

/-- Modelled from the spec: the `tag` attribute of a worktree record reads
the same ref label as `branch` (spec section 4.3: both predicates match on
"the candidate's ref label"). -/
def Worktree.tag (wt : Worktree) : String := wt.branch

/-- Modelled from the spec: `Worktree.from_list` (pybm/specs.py, not part of
the sources) builds a record from one listing group; spec section 4.3: "A
group that does not decompose into exactly three data items is a
ParseError". -/
def Worktree.from_list : List String → Except Err Worktree
  | [r, c, b] => .ok ⟨r, c, b⟩
  | _ => .error .parseError

/-- getattr(wt, attr) for the four legal attributes. -/
def wtGetAttr (wt : Worktree) : WtAttr → String
  | .root => wt.root
  | .commit => wt.commit
  | .branch => wt.branch
  | .tag => wt.tag

/-- git.py lines 23-27: minimum git versions for worktree commands. -/
def _git_worktree_versions : List (String × VersionTuple) :=
  [("add", (2, 6, 7)),
   ("list", (2, 7, 6)),
   ("remove", (2, 17, 0))]

/-- git.py lines 30-43: minimum git versions for worktree command options. -/
def _git_option_versions : List (String × List (String × VersionTuple)) :=
  [("add", [("-f", (2, 6, 7)),
            ("--checkout", (2, 9, 5)),
            ("--no-checkout", (2, 9, 5)),
            ("--lock", (2, 13, 7))]),
   ("list", [("--porcelain", (2, 7, 6))]),
   ("remove", [("-f", (2, 17, 0))])]

/-- git.py lines 45-52: per-operation tables mapping an option name to a
value-to-flag table (a `none` flag means "no flag emitted"). -/
def _git_worktree_flags :
    List (String × List (String × List (Bool × Option String))) :=
  [("add", [("force", [(true, some "-f"), (false, none)]),
            ("checkout", [(true, none), (false, some "--no-checkout")]),
            ("lock", [(true, some "--lock"), (false, none)])]),
   ("list", [("porcelain", [(true, some "--porcelain"), (false, none)])]),
   ("remove", [("force", [(true, some "-f"), (false, none)])])]

/-- Python dict read `cmd_opts[v]` on a value-to-flag table keyed by the
booleans: a `None` value (or a value missing from the table) raises
KeyError. -/
def dictGet (cmd_opts : List (Bool × Option String)) (v : Value) :
    Except Err (Option String) :=
  match v with
  | some b =>
    match alookup b cmd_opts with
    | some flag => .ok flag
    | none => .error .keyError
  | none => .error .keyError

/-- The loop body of `parse_flags` (git.py lines 95-103): options unknown to
the operation's table are skipped (with a debug log); known options are
looked up by value, a KeyError propagating; non-`None` flags are emitted in
iteration order of the supplied kwargs. -/
def parse_flags_go (command_options : List (String × List (Bool × Option String))) :
    List (String × Value) → Except Err (List String)
  | [] => .ok []
  | (k, v) :: rest =>
    match alookup k command_options with
    | none => parse_flags_go command_options rest
    | some cmd_opts =>
      match dictGet cmd_opts v with
      | .error e => .error e
      | .ok flag =>
        match parse_flags_go command_options rest with
        | .error e => .error e
        | .ok flags =>
          .ok (match flag with
               | some f => f :: flags
               | none => flags)

/-- git.py lines 92-104, `GitWorktreeWrapper.parse_flags`.  kwargs are an
ordered association list because Python keyword arguments preserve the
caller's order.  `self.command_db[command]` raises KeyError for an unknown
operation. -/
def parse_flags (command : String) (kwargs : List (String × Value)) :
    Except Err (List String) :=
  match alookup command _git_worktree_flags with
  | none => .error .keyError
  | some command_options => parse_flags_go command_options kwargs

/-- git.py lines 86-90, `prepare_subprocess_args`: positionals first, then
the parsed flags. -/
def prepare_subprocess_args (command : String) (args : List String)
    (kwargs : List (String × Value)) : Except Err (List String) :=
  match parse_flags command kwargs with
  | .error e => .error e
  | .ok flags => .ok (["git", "worktree", command] ++ args ++ flags)

/-- The loop of `feature_guard` (git.py lines 152-157): the running minimum
version together with the offender and its kind ("command" or "switch"),
updated whenever a recognized option's requirement strictly exceeds the
running minimum. -/
def guardFold (options : List (String × VersionTuple)) :
    List String → VersionTuple × String × String → VersionTuple × String × String
  | [], st => st
  | k :: ks, (m, off, ty) =>
    match alookup k options with
    | some contender =>
      if vltb m contender then guardFold options ks (contender, k, "switch")
      else guardFold options ks (m, off, ty)
    | none => guardFold options ks (m, off, ty)

/-- The GitError message built in git.py lines 159-166 when the installed
git version is below the binding minimum. -/
def featureGuardMsg (full_command : String) (minVersion installed : VersionTuple)
    (of_type offender : String) : String :=
  let minimum := version_string minVersion
  "Running the command " ++ pyrepr full_command ++ " requires a minimum git " ++
  "version of " ++ minimum ++ ", but your git version was found to be only " ++
  version_string installed ++ ". This version requirement is because the " ++
  of_type ++ " " ++ pyrepr offender ++ " was used, which was first introduced " ++
  "in git version " ++ minimum ++ "."

/-- git.py lines 141-157, the state computed by `feature_guard` before the
version comparison: the worktree subcommand is `command[2]` (unpacking an
empty remainder is a Python ValueError), it must be a key of the command db
(assert), and the binding minimum version is folded over the dash-prefixed
tokens of the remainder. -/
def feature_guard_state (command : List String) :
    Except Err (VersionTuple × String × String) :=
  match command.drop 2 with
  | [] => .error .valueError
  | wt_command :: rest =>
    if (alookup wt_command _git_worktree_flags).isSome then
      match alookup wt_command _git_worktree_versions,
            alookup wt_command _git_option_versions with
      | some min_version, some options =>
        .ok (guardFold options (rest.filter strStartsWithDash)
              (min_version, wt_command, "command"))
      | _, _ => .error .keyError
    else
      .error (.assertionError
        ("unimplemented git worktree command " ++ pyrepr (command.getD 2 "")))

/-- git.py lines 141-167, `GitWorktreeWrapper.feature_guard`: raises a
GitError naming the offender when the installed version is strictly below
the binding minimum; otherwise raises nothing. -/
def feature_guard (command : List String) (installed : VersionTuple) :
    Except Err Unit :=
  match feature_guard_state command with
  | .error e => .error e
  | .ok (min_version, offender, of_type) =>
    if vltb installed min_version then
      .error (.gitError (featureGuardMsg (joinWith " " command) min_version
        installed of_type offender))
    else
      .ok ()

/-- The external world of the wrapper, as explicit pure functions.
`installed` models the memoized `get_git_version()`; `run` models
`run_subprocess` — modelled from the spec, pybm/util/subprocess.py is not
part of the sources: a non-zero exit raises the given exception type
(GitError) carrying the captured error stream, a zero exit returns the
captured output.  `isMain` models `is_main_worktree`, `resolveRef` models
`resolve_ref` and `disambiguate` models `disambiguate_info`
(pybm/util/git.py, also not part of the sources; spec sections 4.3 and 6
describe them as collaborators returning `(ref, refType)` and the matched
attribute name or an unrecognized-identifier signal).  Paths are modelled
as component lists; `currentFolder` is `current_folder()` and
`create_in_parent` the `git.createWorktreeInParentDirectory` config flag. -/
structure GitEnv where
  installed : VersionTuple
  run : List String → Except Err (Nat × String)
  currentFolder : List String
  isMain : List String → Bool
  resolveRef : String → Bool → String × WtAttr
  disambiguate : String → Option WtAttr
  create_in_parent : Bool

/-- A record of the external invocations an operation performed. -/
abbrev Trace := List (List String)

/-- Renders a component-list path as the string git receives. -/
def pathStr (components : List String) : String :=
  joinWith "/" components

/-- git.py lines 106-112, `run_command`: build the token sequence, check it
against the installed git version, and only then invoke the external
process.  The first component of the result is the trace of invocations
actually performed. -/
def run_command (env : GitEnv) (wt_command : String) (args : List String)
    (kwargs : List (String × Value)) : Trace × Except Err (Nat × String) :=
  match prepare_subprocess_args wt_command args kwargs with
  | .error e => ([], .error e)
  | .ok command =>
    match feature_guard command env.installed with
    | .error e => ([], .error e)
    | .ok () => ([command], env.run command)

/-- Python slicing `[l[i:i+3] for i in range(0, len(l), 3)]`. -/
def chunks3 {α : Type} : List α → List (List α)
  | [] => []
  | [a] => [[a]]
  | [a, b] => [[a, b]]
  | a :: b :: c :: rest => [a, b, c] :: chunks3 rest

/-- Left-to-right effectful map: the semantics of `lmap` over a function
that can raise, the first raise propagating. -/
def mapE {α β : Type} (f : α → Except Err β) : List α → Except Err (List β)
  | [] => .ok []
  | a :: as =>
    match f a with
    | .error e => .error e
    | .ok b =>
      match mapE f as with
      | .error e => .error e
      | .ok bs => .ok (b :: bs)

/-- git.py lines 173-177, the parsing pipeline of `list_worktrees` applied
to the output's lines: drop empty lines, keep each line's last token, group
into triples, build the records. -/
def parse_worktree_lines (lines : List String) : Except Err (List Worktree) :=
  let attr_list := (lines.filter (fun x => x ≠ "")).map lastToken
  mapE Worktree.from_list (chunks3 attr_list)

/-- git.py lines 169-177, `list_worktrees`: run `git worktree list
--porcelain` and parse its output. -/
def list_worktrees (env : GitEnv) (porcelain : Bool := true) :
    Trace × Except Err (List Worktree) :=
  match run_command env "list" [] [("porcelain", some porcelain)] with
  | (t, .error e) => (t, .error e)
  | (t, .ok (_, output)) => (t, parse_worktree_lines (splitlines output))

/-- git.py lines 116-121, the `attr_checks` predicates: `root` compares
final path components, `commit` is a substring test of the full commit id,
`branch` and `tag` compare the final slash-delimited segment of the ref
label. -/
def attrCheck (attr : WtAttr) (value : String) (x : String) : Bool :=
  match attr with
  | .root => pathName x = pathName value
  | .commit => containsB x value
  | .branch => lastSegment x = value
  | .tag => lastSegment x = value

/-- The generator expression of git.py lines 128-130: the first listed
worktree whose attribute satisfies the check, if any. -/
def find_worktree (wts : List Worktree) (attr : WtAttr) (value : String) :
    Option Worktree :=
  wts.find? (fun wt => attrCheck attr value (wtGetAttr wt attr))

/-- git.py lines 114-139, `get_worktree_by_attr`: list the worktrees and
return the first match, converting exhaustion (StopIteration) to `none`;
errors of the listing itself propagate. -/
def get_worktree_by_attr (env : GitEnv) (attr : WtAttr) (value : String) :
    Trace × Except Err (Option Worktree) :=
  match list_worktrees env with
  | (t, .error e) => (t, .error e)
  | (t, .ok wts) => (t, .ok (find_worktree wts attr value))

/-- git.py lines 57-75, `git_worktree_context`: the body runs inside a
context manager whose generator catches GitError and only prints "failed.",
which suppresses the exception; every other exception propagates. -/
def git_worktree_context {α : Type} (body : Except Err α) : Except Err Unit :=
  match body with
  | .ok _ => .ok ()
  | .error (.gitError _) => .ok ()
  | .error e => .error e

/-- The DuplicateWorktreeError message of git.py lines 199-202. -/
def dupMsg (ref_type : String) (commit_ish : String) : String :=
  "Worktree for " ++ ref_type ++ " " ++ pyrepr commit_ish ++ " already " ++
  "exists. If you want to check out the same " ++ ref_type ++ " multiple " ++
  "times, supply the -f/--force option to `pybm create`."

/-- git.py lines 205-215: the synthesized default destination
`<repo-name>@<commit-ish with slashes escaped>`, created relative to the
parent of the current checkout or to the current checkout itself depending
on the configuration flag. -/
def default_destination (env : GitEnv) (commit_ish : String) : String :=
  let escaped := escapeSlash commit_ish
  let worktree_id := joinWith "@" [env.currentFolder.getLastD "", escaped]
  let dest_dir :=
    if env.create_in_parent then env.currentFolder.dropLast
    else env.currentFolder
  pathStr (dest_dir ++ [worktree_id])

/-- The destination actually used by `add_worktree`: the caller's, unless it
is absent or empty (Python `if not destination:`). -/
def destSel (env : GitEnv) (destination : Option String) (commit_ish : String) :
    String :=
  match destination with
  | some d => if d = "" then default_destination env commit_ish else d
  | none => default_destination env commit_ish

/-- git.py lines 179-224, `add_worktree`: main-checkout precondition, ref
resolution, duplicate check (skipped under `force`), destination synthesis,
the guarded external invocation inside `git_worktree_context`, and the
post-condition re-query whose failure is the assert of line 223. -/
def add_worktree (env : GitEnv) (commit_ish : String)
    (destination : Option String) (force checkout lock resolve_commits : Bool) :
    Trace × Except Err Worktree :=
  if ¬ env.isMain env.currentFolder then
    ([], .error (.gitError "No git repository present in this path."))
  else
    let rr := env.resolveRef commit_ish resolve_commits
    let ref := rr.1
    let ref_type := rr.2
    let dup : Trace × Except Err Unit :=
      if force then ([], .ok ())
      else
        match get_worktree_by_attr env ref_type ref with
        | (t, .error e) => (t, .error e)
        | (t, .ok (some _)) =>
          (t, .error (.gitError (dupMsg (attrToString ref_type) commit_ish)))
        | (t, .ok none) => (t, .ok ())
    match dup with
    | (t1, .error e) => (t1, .error e)
    | (t1, .ok ()) =>
      let dest := destSel env destination commit_ish
      let invoke := run_command env "add" [dest, ref]
        [("force", some force), ("checkout", some checkout),
         ("lock", some lock)]
      match git_worktree_context invoke.2 with
      | .error e => (t1 ++ invoke.1, .error e)
      | .ok () =>
        match get_worktree_by_attr env .root dest with
        | (t3, .error e) => (t1 ++ invoke.1 ++ t3, .error e)
        | (t3, .ok none) =>
          (t1 ++ invoke.1 ++ t3,
           .error (.assertionError "internal error in git worktree construction"))
        | (t3, .ok (some wt)) => (t1 ++ invoke.1 ++ t3, .ok wt)

/-- git.py lines 226-249, `remove_worktree`: main-checkout precondition,
identifier disambiguation, resolution via `get_worktree_by_attr`, and the
guarded external invocation inside `git_worktree_context`; the last-known
record is returned. -/
def remove_worktree (env : GitEnv) (info : String) (force : Bool) :
    Trace × Except Err Worktree :=
  if ¬ env.isMain env.currentFolder then
    ([], .error (.gitError "No git repository present in this path."))
  else
    match env.disambiguate info with
    | none =>
      ([], .error (.gitError ("Argument " ++ pyrepr info ++ " was not " ++
        "recognized as an attribute of an existing worktree.")))
    | some attr =>
      match get_worktree_by_attr env attr info with
      | (t1, .error e) => (t1, .error e)
      | (t1, .ok none) =>
        (t1, .error (.gitError ("Worktree with " ++ attrToString attr ++ " " ++
          pyrepr info ++ " does not exist.")))
      | (t1, .ok (some wt)) =>
        let destination := wt.root
        let invoke := run_command env "remove" [destination]
          [("force", some force)]
        match git_worktree_context invoke.2 with
        | .error e => (t1 ++ invoke.1, .error e)
        | .ok () => (t1 ++ invoke.1, .ok wt)


/-- The listing invocation's token sequence. -/
def listCmd : List String := ["git", "worktree", "list", "--porcelain"]

/-- The match predicate of claim C7, written from the spec's wording:
`root` compares the final path component of the candidate's root with the
final path component of the value; `commit` asks whether the value is a
substring of the full commit id; `branch` and `tag` compare the final
slash-delimited segment of the candidate's ref label with the value,
case-sensitively. -/
def claimPred (attr : WtAttr) (value : String) (wt : Worktree) : Bool :=
  match attr with
  | .root => pathName wt.root = pathName value
  | .commit => containsB wt.commit value
  | .branch => lastSegment wt.branch = value
  | .tag => lastSegment wt.branch = value

/-- The worktree record a well-formed three-line group should produce: the
last tokens of its three lines, in order (root, commit id, ref label). -/
def specRecord (g : List String) : Worktree :=
  ⟨lastToken (g.getD 0 ""), lastToken (g.getD 1 ""), lastToken (g.getD 2 "")⟩

/-- The destination formula of claim C9, written from the spec's wording:
`<repository-name>@<commitIsh with every slash replaced by a dash>`, placed
under the parent of the current checkout when the configuration flag is set
and under the current checkout itself otherwise.  It depends only on the
flag, the current checkout path and the commit-ish. -/
def destFormula (create_in_parent : Bool) (currentFolder : List String)
    (commit_ish : String) : String :=
  pathStr ((if create_in_parent then currentFolder.dropLast else currentFolder)
    ++ [currentFolder.getLastD "" ++ "@" ++ escapeSlash commit_ish])

/-- An environment whose repository has one worktree, on branch `main`;
every invocation other than the listing fails with a non-zero exit (a
GitError carrying the captured error stream). -/
def envSwallow : GitEnv :=
  { installed := (2, 17, 0)
    run := fun cmd =>
      if cmd = listCmd then
        .ok (0, "worktree /tmp/repo2\nHEAD 0123abc\nbranch refs/heads/main\n\n")
      else
        .error (.gitError "fatal: could not remove")
    currentFolder := ["", "tmp", "repo"]
    isMain := fun _ => true
    resolveRef := fun s _ => (s, .branch)
    disambiguate := fun _ => some .branch
    create_in_parent := false }

/-- A porcelain listing whose first group carries four data lines and whose
second group carries only two. -/
def outMalformed : String :=
  "worktree /tmp/a\nHEAD 1111111\nbranch refs/heads/x\nlocked\n\n" ++
  "worktree /tmp/b\nHEAD 2222222\n\n"

/-- An environment whose listing output is `outMalformed`. -/
def envMalformed : GitEnv :=
  { installed := (2, 17, 0)
    run := fun cmd =>
      if cmd = listCmd then .ok (0, outMalformed)
      else .error (.gitError "unexpected invocation")
    currentFolder := ["", "tmp", "repo"]
    isMain := fun _ => true
    resolveRef := fun s _ => (s, .branch)
    disambiguate := fun _ => some .branch
    create_in_parent := false }

/-- An environment listing two worktrees whose ref labels differ only in
letter case: `refs/heads/Feature-x` first, `refs/heads/feature-x` second. -/
def envCase : GitEnv :=
  { installed := (2, 17, 0)
    run := fun cmd =>
      if cmd = listCmd then
        .ok (0, "worktree /w/b\nHEAD def456\nbranch refs/heads/Feature-x\n\n" ++
               "worktree /w/a\nHEAD abc123\nbranch refs/heads/feature-x\n\n")
      else .error (.gitError "unexpected invocation")
    currentFolder := ["", "w", "repo"]
    isMain := fun _ => true
    resolveRef := fun s _ => (s, .branch)
    disambiguate := fun _ => some .branch
    create_in_parent := false }

/-- The two records listed by `envCase`, in listing order. -/
def wtsCase : List Worktree :=
  [⟨"/w/b", "def456", "refs/heads/Feature-x"⟩,
   ⟨"/w/a", "abc123", "refs/heads/feature-x"⟩]

/-- A neutral environment used by concrete instantiations: git 2.5.0 is
installed and every subprocess call would succeed with empty output. -/
def envPlain : GitEnv :=
  { installed := (2, 5, 0)
    run := fun _ => .ok (0, "")
    currentFolder := ["", "tmp", "repo"]
    isMain := fun _ => true
    resolveRef := fun s _ => (s, .branch)
    disambiguate := fun _ => some .branch
    create_in_parent := false }

/-- An environment whose listing output consists of a single two-line
group. -/
def envOneBad : GitEnv :=
  { installed := (2, 17, 0)
    run := fun cmd =>
      if cmd = listCmd then .ok (0, "worktree /tmp/a\nHEAD 1111111\n\n")
      else .error (.gitError "unexpected invocation")
    currentFolder := ["", "tmp", "repo"]
    isMain := fun _ => true
    resolveRef := fun s _ => (s, .branch)
    disambiguate := fun _ => some .branch
    create_in_parent := false }

/-! ## Order lemmas for version tuples -/

theorem vltb_irrefl (a : VersionTuple) : vltb a a = false := by
  rcases a with ⟨a1, a2, a3⟩
  simp [vltb]

theorem vltb_asymm {a b : VersionTuple} (h : vltb a b = true) :
    vltb b a = false := by
  rcases a with ⟨a1, a2, a3⟩
  rcases b with ⟨b1, b2, b3⟩
  simp only [vltb, decide_eq_true_eq, decide_eq_false_iff_not] at h ⊢
  omega

theorem vltb_total_eq {a b : VersionTuple} (h1 : vltb a b = false)
    (h2 : vltb b a = false) : a = b := by
  rcases a with ⟨a1, a2, a3⟩
  rcases b with ⟨b1, b2, b3⟩
  simp only [vltb, decide_eq_false_iff_not] at h1 h2
  simp only [Prod.mk.injEq]
  omega

theorem vltb_ge_trans {a b c : VersionTuple} (h1 : vltb a b = false)
    (h2 : vltb b c = false) : vltb a c = false := by
  rcases a with ⟨a1, a2, a3⟩
  rcases b with ⟨b1, b2, b3⟩
  rcases c with ⟨c1, c2, c3⟩
  simp only [vltb, decide_eq_false_iff_not] at h1 h2 ⊢
  omega

theorem vmax_ge_left (a b : VersionTuple) : vltb (vmax a b) a = false := by
  unfold vmax
  by_cases h : vltb a b = true
  · simp only [h, if_true]
    exact vltb_asymm h
  · simp only [Bool.not_eq_true] at h
    simp only [h, if_false]
    exact vltb_irrefl a

theorem vmax_ge_right (a b : VersionTuple) : vltb (vmax a b) b = false := by
  unfold vmax
  by_cases h : vltb a b = true
  · simp only [h, if_true]
    exact vltb_irrefl b
  · simp only [Bool.not_eq_true] at h
    simp only [h, if_false]
    exact h

/-! ## The guard loop computes the maximum requirement -/

/-- `m` is the lexicographic maximum of `base` and the elements of `vs`. -/
def isLexMax (m base : VersionTuple) (vs : List VersionTuple) : Prop :=
  (m = base ∨ m ∈ vs) ∧ vltb m base = false ∧ ∀ v ∈ vs, vltb m v = false

theorem guardFold_fst (options : List (String × VersionTuple)) :
    ∀ (ks : List String) (m : VersionTuple) (off ty : String),
    (guardFold options ks (m, off, ty)).1 =
      (ks.filterMap (fun k => alookup k options)).foldl vmax m := by
  intro ks
  induction ks with
  | nil => intro m off ty; rfl
  | cons k ks ih =>
    intro m off ty
    unfold guardFold
    cases hk : alookup k options with
    | none => simp [hk, ih]
    | some contender =>
      by_cases hv : vltb m contender = true
      · simp [hk, hv, ih, vmax]
      · simp only [Bool.not_eq_true] at hv
        simp [hk, hv, ih, vmax]

theorem foldl_vmax_self_or_mem (l : List VersionTuple) :
    ∀ m : VersionTuple, l.foldl vmax m = m ∨ l.foldl vmax m ∈ l := by
  induction l with
  | nil => intro m; left; rfl
  | cons x xs ih =>
    intro m
    simp only [List.foldl_cons]
    rcases ih (vmax m x) with h | h
    · rw [h]
      unfold vmax
      by_cases hv : vltb m x = true
      · right; simp [hv]
      · left; simp only [Bool.not_eq_true] at hv; simp [hv]
    · right
      exact List.mem_cons_of_mem x h

theorem foldl_vmax_ge_init (l : List VersionTuple) :
    ∀ m : VersionTuple, vltb (l.foldl vmax m) m = false := by
  induction l with
  | nil => intro m; exact vltb_irrefl m
  | cons x xs ih =>
    intro m
    simp only [List.foldl_cons]
    exact vltb_ge_trans (ih (vmax m x)) (vmax_ge_left m x)

theorem foldl_vmax_ge_mem (l : List VersionTuple) :
    ∀ (m v : VersionTuple), v ∈ l → vltb (l.foldl vmax m) v = false := by
  induction l with
  | nil => intro m v hv; cases hv
  | cons x xs ih =>
    intro m v hv
    simp only [List.foldl_cons]
    rcases List.mem_cons.mp hv with h | h
    · subst h
      exact vltb_ge_trans (foldl_vmax_ge_init xs (vmax m v)) (vmax_ge_right m v)
    · exact ih (vmax m x) v h

theorem foldl_vmax_isLexMax (base : VersionTuple) (vs : List VersionTuple) :
    isLexMax (vs.foldl vmax base) base vs :=
  ⟨foldl_vmax_self_or_mem vs base, foldl_vmax_ge_init vs base,
   fun v hv => foldl_vmax_ge_mem vs base v hv⟩

/-- Tokens that do not start with a dash are never keys of an option table
whose keys all start with a dash, so filtering them away first does not
change which option versions are collected. -/
theorem filterMap_lookup_filter_dash (options : List (String × VersionTuple))
    (hopt : ∀ kv ∈ options, strStartsWithDash kv.1 = true) :
    ∀ rest : List String,
    (rest.filter strStartsWithDash).filterMap (fun k => alookup k options) =
      rest.filterMap (fun k => alookup k options) := by
  have hnone : ∀ k : String, strStartsWithDash k = false →
      alookup k options = none := by
    intro k hk
    induction options with
    | nil => rfl
    | cons kv kvs ih =>
      unfold alookup
      by_cases he : k = kv.1
      · exfalso
        have := hopt kv (List.mem_cons_self kv kvs)
        rw [← he] at this
        rw [this] at hk
        cases hk
      · have : ∀ kv2 ∈ kvs, strStartsWithDash kv2.1 = true := by
          intro kv2 h2
          exact hopt kv2 (List.mem_cons_of_mem kv h2)
        rcases kv with ⟨k1, v1⟩
        simp only at he
        rw [if_neg he]
        exact ih this
    
  intro rest
  induction rest with
  | nil => rfl
  | cons k ks ih =>
    by_cases hk : strStartsWithDash k = true
    · simp only [List.filter_cons, hk, if_true, List.filterMap_cons, ih]
    · simp only [Bool.not_eq_true] at hk
      simp [List.filter_cons, hk, List.filterMap_cons, hnone k hk, ih]

set_option maxRecDepth 40000

/-! ## Claim C3 -/

/-- Claim C3: for every constructed token sequence of a known operation, the
binding minimum version computed by the guard is the lexicographic maximum
of the operation's base minimum version and the minimum versions of every
recognized option flag present in the tokens (unrecognized flags are
ignored), and a version exactly equal to that binding minimum passes the
guard without an error. -/
theorem feature_guard_binding_minimum
    (op : String) (rest : List String) (installed base : VersionTuple)
    (options : List (String × VersionTuple))
    (h1 : alookup op _git_worktree_versions = some base)
    (h2 : alookup op _git_option_versions = some options)
    (h3 : (alookup op _git_worktree_flags).isSome = true)
    (h4 : ∀ kv ∈ options, strStartsWithDash kv.1 = true) :
    ∃ m off ty,
      feature_guard_state ("git" :: "worktree" :: op :: rest) = .ok (m, off, ty) ∧
      isLexMax m base (rest.filterMap (fun k => alookup k options)) ∧
      (installed = m →
        feature_guard ("git" :: "worktree" :: op :: rest) installed = .ok ()) := by
  have hstate : feature_guard_state ("git" :: "worktree" :: op :: rest) =
      .ok (guardFold options (rest.filter strStartsWithDash)
            (base, op, "command")) := by
    unfold feature_guard_state
    simp [h1, h2, h3]
  refine ⟨(guardFold options (rest.filter strStartsWithDash)
            (base, op, "command")).1,
          (guardFold options (rest.filter strStartsWithDash)
            (base, op, "command")).2.1,
          (guardFold options (rest.filter strStartsWithDash)
            (base, op, "command")).2.2, by rw [hstate], ?_, ?_⟩
  · rw [guardFold_fst, filterMap_lookup_filter_dash options h4 rest]
    exact foldl_vmax_isLexMax base _
  · intro he
    unfold feature_guard
    rw [hstate]
    have : vltb installed
        (guardFold options (rest.filter strStartsWithDash)
          (base, op, "command")).1 = false := by
      rw [he]
      exact vltb_irrefl _
    simp [this]

/-- Witness for C3 at the `add` operation with an unrecognized flag present:
the binding minimum is the one of `--lock`, and exactly that installed
version passes the guard. -/
theorem feature_guard_binding_minimum_witness :
    feature_guard ["git", "worktree", "add", "d", "r", "--lock", "--bogus"]
      (2, 13, 7) = .ok () := by
  obtain ⟨m, off, ty, hs, hmax, hok⟩ :=
    feature_guard_binding_minimum "add" ["d", "r", "--lock", "--bogus"]
      (2, 13, 7) (2, 6, 7)
      [("-f", (2, 6, 7)), ("--checkout", (2, 9, 5)),
       ("--no-checkout", (2, 9, 5)), ("--lock", (2, 13, 7))]
      (by decide) (by decide) (by decide) (by decide)
  have hvs : (["d", "r", "--lock", "--bogus"].filterMap
      (fun k => alookup k
        [("-f", ((2, 6, 7) : VersionTuple)), ("--checkout", (2, 9, 5)),
         ("--no-checkout", (2, 9, 5)), ("--lock", (2, 13, 7))])) =
      [(2, 13, 7)] := by decide
  rw [hvs] at hmax
  obtain ⟨hm1, hm2, hm3⟩ := hmax
  have hm : m = (2, 13, 7) := by
    rcases hm1 with h | h
    · exfalso
      have hv := hm3 (2, 13, 7) (by simp)
      rw [h] at hv
      exact absurd hv (by decide)
    · simpa using h
  exact hok hm.symm

/-! ## Claim C2 -/

/-- Claim C2: for every known worktree operation and option set, if the
installed git version is strictly below the binding minimum version of the
constructed command then `run_command` raises the compatibility GitError
and the external process is never invoked (the invocation trace is empty);
if the installed version is at least the binding minimum, the guard raises
nothing. -/
theorem run_command_version_gate
    (env : GitEnv) (op : String) (args : List String)
    (kwargs : List (String × Value)) (flags : List String)
    (m : VersionTuple) (off ty : String)
    (hp : parse_flags op kwargs = .ok flags)
    (hs : feature_guard_state (["git", "worktree", op] ++ args ++ flags) =
      .ok (m, off, ty)) :
    (vltb env.installed m = true →
      run_command env op args kwargs =
        ([], .error (.gitError (featureGuardMsg
          (joinWith " " (["git", "worktree", op] ++ args ++ flags))
          m env.installed ty off)))) ∧
    (vltb env.installed m = false →
      feature_guard (["git", "worktree", op] ++ args ++ flags) env.installed =
        .ok ()) := by
  constructor
  · intro hlt
    unfold run_command prepare_subprocess_args feature_guard
    simp only [hp, hs, hlt, if_true]
  · intro hge
    unfold feature_guard
    simp only [hs, hge]
    simp

/-- Witness for C2: with git 2.5.0 installed, `run_command` for
`git worktree add d r -f` (binding minimum 2.6.7) raises the compatibility
GitError and performs no invocation. -/
theorem run_command_version_gate_witness :
    run_command envPlain "add" ["d", "r"] [("force", some true)] =
      ([], .error (.gitError (featureGuardMsg
        (joinWith " " (["git", "worktree", "add"] ++ ["d", "r"] ++ ["-f"]))
        (2, 6, 7) envPlain.installed "command" "add"))) :=
  (run_command_version_gate envPlain "add" ["d", "r"] [("force", some true)]
    ["-f"] (2, 6, 7) "add" "command" (by decide) (by decide)).1 (by decide)

/-! ## Claim C5 -/

/-- Counterexample to claim C5 as stated: the table-declared minimum version
of the option `-f` of operation `add` is 2.6.7, which exceeds the installed
2.5.0; the guard raises, but its message names the command `add`, not the
switch `-f` — the word "switch" does not occur in the message at all
(the offender is only updated on a strict increase over the base minimum,
and 2.6.7 equals the base). -/
theorem feature_guard_switch_message_counterexample :
    alookup "-f" ((alookup "add" _git_option_versions).getD []) =
      some (2, 6, 7) ∧
    vltb (2, 5, 0) (2, 6, 7) = true ∧
    feature_guard ["git", "worktree", "add", "d", "r", "-f"] (2, 5, 0) =
      .error (.gitError (featureGuardMsg "git worktree add d r -f"
        (2, 6, 7) (2, 5, 0) "command" "add")) ∧
    containsB (featureGuardMsg "git worktree add d r -f"
      (2, 6, 7) (2, 5, 0) "command" "add") "switch" = false := by
  refine ⟨by decide, by decide, by decide, by decide⟩

/-- Claim C5 as amended: for every (operation, option-flag) pair whose
table-declared minimum version strictly exceeds both the operation's base
minimum version and the installed version, a command carrying that flag (as
its only flag) raises a GitError whose message names that exact flag as a
switch together with its required minimum version string. -/
theorem feature_guard_switch_message
    (op flag : String) (args : List String)
    (base fv installed : VersionTuple)
    (options : List (String × VersionTuple))
    (h1 : alookup op _git_worktree_versions = some base)
    (h2 : alookup op _git_option_versions = some options)
    (h3 : (alookup op _git_worktree_flags).isSome = true)
    (hf : alookup flag options = some fv)
    (hdash : strStartsWithDash flag = true)
    (hargs : ∀ a ∈ args, strStartsWithDash a = false)
    (hbase : vltb base fv = true)
    (hinst : vltb installed fv = true) :
    feature_guard ("git" :: "worktree" :: op :: (args ++ [flag])) installed =
      .error (.gitError (featureGuardMsg
        (joinWith " " ("git" :: "worktree" :: op :: (args ++ [flag])))
        fv installed "switch" flag)) := by
  have hfilter : (args ++ [flag]).filter strStartsWithDash = [flag] := by
    rw [List.filter_append]
    have hnil : args.filter strStartsWithDash = [] := by
      rw [List.filter_eq_nil_iff]
      intro a ha
      simp [hargs a ha]
    rw [hnil]
    simp [List.filter, hdash]
  have hstate : feature_guard_state
      ("git" :: "worktree" :: op :: (args ++ [flag])) =
      .ok (fv, flag, "switch") := by
    unfold feature_guard_state
    simp only [List.drop_succ_cons, List.drop_zero, h3, if_true, h1, h2, hfilter]
    unfold guardFold
    simp only [hf, hbase, if_true]
    rfl
  unfold feature_guard
  simp only [hstate, hinst, if_true]

/-- Witness for C5 (amended): `--lock` requires 2.13.7, strictly above both
the base 2.6.7 of `add` and the installed 2.9.0, and the raised message
names the switch `--lock`. -/
theorem feature_guard_switch_message_witness :
    feature_guard ("git" :: "worktree" :: "add" :: (["d", "r"] ++ ["--lock"]))
      (2, 9, 0) =
      .error (.gitError (featureGuardMsg
        (joinWith " " ("git" :: "worktree" :: "add" :: (["d", "r"] ++ ["--lock"])))
        (2, 13, 7) (2, 9, 0) "switch" "--lock")) :=
  feature_guard_switch_message "add" "--lock" ["d", "r"] (2, 6, 7) (2, 13, 7)
    (2, 9, 0) [("-f", (2, 6, 7)), ("--checkout", (2, 9, 5)),
      ("--no-checkout", (2, 9, 5)), ("--lock", (2, 13, 7))]
    (by decide) (by decide) (by decide) (by decide) (by decide)
    (by decide) (by decide) (by decide)

/-! ## Claim C4 -/

/-- Counterexample to claim C4 as stated: the same logical option mapping
(force and lock both enabled) supplied in two different orders produces two
different token sequences, so the emitted flag order follows the caller's
supplied order, not the table's fixed declaration order. -/
theorem parse_flags_table_order_counterexample :
    parse_flags "add" [("force", some true), ("lock", some true)] =
      .ok ["-f", "--lock"] ∧
    parse_flags "add" [("lock", some true), ("force", some true)] =
      .ok ["--lock", "-f"] ∧
    (["--lock", "-f"] : List String) ≠ ["-f", "--lock"] := by
  refine ⟨by decide, by decide, by decide⟩

/-- Claim C4 as amended: the sequence of flags emitted by `parse_flags`
follows the order in which the caller supplied the options (restricted to
options recognized by the operation's table whose value maps to a flag), so
two logically identical requests produce identical token sequences exactly
when the options are supplied in the same order. -/
theorem parse_flags_caller_order
    (command : String) (opts : List (String × List (Bool × Option String)))
    (kwargs : List (String × Value)) (flags : List String)
    (hc : alookup command _git_worktree_flags = some opts)
    (hp : parse_flags command kwargs = .ok flags) :
    flags = kwargs.filterMap (fun kv =>
      (alookup kv.1 opts).bind (fun tbl =>
        kv.2.bind (fun b => (alookup b tbl).join))) := by
  unfold parse_flags at hp
  rw [hc] at hp
  induction kwargs generalizing flags with
  | nil =>
    unfold parse_flags_go at hp
    injection hp with h
    simp [← h]
  | cons kv rest ih =>
    rcases kv with ⟨k, v⟩
    unfold parse_flags_go at hp
    cases hk : alookup k opts with
    | none =>
      simp only [hk] at hp
      simp only [List.filterMap_cons, hk, Option.bind]
      exact ih flags hp
    | some tbl =>
      simp only [hk] at hp
      cases hv : dictGet tbl v with
      | error e => simp only [hv] at hp; exact Except.noConfusion hp
      | ok flag =>
        simp only [hv] at hp
        cases hrest : parse_flags_go opts rest with
        | error e => simp only [hrest] at hp; exact Except.noConfusion hp
        | ok flags2 =>
          simp only [hrest] at hp
          injection hp with hp2
          unfold dictGet at hv
          cases v with
          | none => exact Except.noConfusion hv
          | some b =>
            cases hb : alookup b tbl with
            | none => simp only [hb] at hv; exact Except.noConfusion hv
            | some flag2 =>
              simp only [hb] at hv
              have hflag : flag = flag2 := by
                injection hv with h
                exact h.symm
              subst hflag
              have hrec := ih flags2 hrest
              subst hp2
              simp only [List.filterMap_cons, hk, hb, Option.some_bind, Option.join]
              cases flag with
              | none => simpa using hrec
              | some f => simp [hrec]

/-- Witness for C4 (amended): a concrete call's emitted flags equal the
caller-order filter-map over its supplied options. -/
theorem parse_flags_caller_order_witness :
    (["-f", "--lock"] : List String) =
      ([("force", some true), ("checkout", some true), ("lock", some true)] :
        List (String × Value)).filterMap (fun kv =>
        (alookup kv.1
          [("force", [(true, some "-f"), (false, none)]),
           ("checkout", [(true, none), (false, some "--no-checkout")]),
           ("lock", [(true, some "--lock"), (false, none)])]).bind (fun tbl =>
          kv.2.bind (fun b => (alookup b tbl).join))) :=
  parse_flags_caller_order "add"
    [("force", [(true, some "-f"), (false, none)]),
     ("checkout", [(true, none), (false, some "--no-checkout")]),
     ("lock", [(true, some "--lock"), (false, none)])]
    [("force", some true), ("checkout", some true), ("lock", some true)]
    ["-f", "--lock"] (by decide) (by decide)

/-! ## Claim C10 -/

/-- Claim C10: for an option recognized by an operation's flag table but
given a value outside that option's value-to-flag table — here `force=None`
for `add`, whose table has only the keys True and False — `parse_flags`
raises an unhandled lookup error (a KeyError, not an emitted empty flag and
not a typed GitError diagnostic). -/
theorem parse_flags_none_value_keyerror :
    parse_flags "add" [("force", none)] = .error Err.keyError := by decide

/-! ## Claim C1 -/

/-- Claim C1 fails on the code: `git_worktree_context` catches GitError and
only prints "failed.", which suppresses the exception.  In the environment
`envSwallow` the external `git worktree remove` invocation exits non-zero
(its GitError carries the captured error stream), yet `remove_worktree`
returns the removed record as a success instead of propagating the error to
its caller. -/
theorem remove_worktree_swallows_git_error :
    git_worktree_context
        (Except.error (Err.gitError "fatal: could not remove")
          : Except Err (Nat × String)) = .ok () ∧
    envSwallow.run ["git", "worktree", "remove", "/tmp/repo2"] =
      .error (.gitError "fatal: could not remove") ∧
    remove_worktree envSwallow "main" false =
      ([listCmd, ["git", "worktree", "remove", "/tmp/repo2"]],
       .ok ⟨"/tmp/repo2", "0123abc", "refs/heads/main"⟩) := by
  refine ⟨rfl, by decide, by decide⟩

/-! ## Claim C7 -/

theorem find?_first_characterization {α : Type} (p : α → Bool) :
    ∀ (l : List α) (a : α), l.find? p = some a →
      ∃ i, ∃ h : i < l.length, l.get ⟨i, h⟩ = a ∧ p a = true ∧
        ∀ j, ∀ hj : j < l.length, j < i → p (l.get ⟨j, hj⟩) = false := by
  intro l
  induction l with
  | nil => intro a h; simp [List.find?] at h
  | cons x xs ih =>
    intro a h
    cases hp : p x with
    | true =>
      simp only [List.find?_cons, hp] at h
      injection h with h2
      subst h2
      exact ⟨0, Nat.succ_pos _, rfl, hp,
        fun j hj hlt => absurd hlt (Nat.not_lt_zero j)⟩
    | false =>
      simp only [List.find?_cons, hp] at h
      obtain ⟨i, hi, hget, hpa, hprev⟩ := ih a h
      refine ⟨i + 1, Nat.succ_lt_succ hi, ?_, hpa, ?_⟩
      · simpa using hget
      · intro j hj hlt
        cases j with
        | zero => simpa using hp
        | succ j2 =>
          have hh := hprev j2 (Nat.lt_of_succ_lt_succ hj)
            (Nat.lt_of_succ_lt_succ hlt)
          simpa using hh

/-- The code's `attr_checks` dictionary applied to `getattr(wt, attr)`
coincides with the claim's predicate. -/
theorem attrCheck_eq_claimPred (attr : WtAttr) (value : String) (wt : Worktree) :
    attrCheck attr value (wtGetAttr wt attr) = claimPred attr value wt := by
  cases attr <;> rfl

/-- Claim C7: for every attribute and value, `get_worktree_by_attr` returns
the first worktree in listing order whose attribute satisfies the
attribute-specific predicate (root: equal final path components; commit:
value is a substring of the full commit id; branch/tag: equal final
slash-delimited segment of the ref label, case-sensitively), and returns
not-found exactly when no record matches. -/
theorem get_worktree_by_attr_first_match
    (env : GitEnv) (attr : WtAttr) (value : String)
    (t : Trace) (wts : List Worktree)
    (hl : list_worktrees env = (t, .ok wts)) :
    (∀ wt, get_worktree_by_attr env attr value = (t, .ok (some wt)) →
      ∃ i, ∃ h : i < wts.length, wts.get ⟨i, h⟩ = wt ∧
        claimPred attr value wt = true ∧
        ∀ j, ∀ hj : j < wts.length, j < i →
          claimPred attr value (wts.get ⟨j, hj⟩) = false) ∧
    (get_worktree_by_attr env attr value = (t, .ok none) ↔
      ∀ wt ∈ wts, claimPred attr value wt = false) := by
  have hg : get_worktree_by_attr env attr value =
      (t, .ok (find_worktree wts attr value)) := by
    unfold get_worktree_by_attr
    rw [hl]
  have hfind : find_worktree wts attr value =
      wts.find? (claimPred attr value) := by
    unfold find_worktree
    congr 1
    funext wt
    exact attrCheck_eq_claimPred attr value wt
  constructor
  · intro wt h
    rw [hg] at h
    rw [Prod.ext_iff] at h
    have h3 := h.2
    simp only at h3
    injection h3 with h4
    rw [hfind] at h4
    exact find?_first_characterization _ wts wt h4
  · rw [hg]
    constructor
    · intro h
      rw [Prod.ext_iff] at h
      have h3 := h.2
      simp only at h3
      injection h3 with h4
      rw [hfind] at h4
      rw [List.find?_eq_none] at h4
      intro wt hwt
      simpa using h4 wt hwt
    · intro hall
      have h2 : wts.find? (claimPred attr value) = none := by
        rw [List.find?_eq_none]
        intro wt hwt
        simp [hall wt hwt]
      rw [hfind, h2]

/-- Witness for C7: against a listing whose first record's ref label is
`refs/heads/Feature-x` and whose second is `refs/heads/feature-x`, the
branch lookup for `feature-x` returns the second record, and every earlier
record (the one differing only by letter case) fails the predicate. -/
theorem get_worktree_by_attr_first_match_witness :
    ∃ i, ∃ h : i < wtsCase.length,
      wtsCase.get ⟨i, h⟩ = ⟨"/w/a", "abc123", "refs/heads/feature-x"⟩ ∧
      claimPred .branch "feature-x"
        ⟨"/w/a", "abc123", "refs/heads/feature-x"⟩ = true ∧
      ∀ j, ∀ hj : j < wtsCase.length, j < i →
        claimPred .branch "feature-x" (wtsCase.get ⟨j, hj⟩) = false :=
  (get_worktree_by_attr_first_match envCase .branch "feature-x" [listCmd]
      wtsCase (by decide)).1
    ⟨"/w/a", "abc123", "refs/heads/feature-x"⟩ (by decide)

/-! ## Claim C6 -/

/-- Running the listing against any environment reduces to parsing the
splitlines of the run's output, provided the installed git version admits
`git worktree list --porcelain` (minimum 2.7.6). -/
theorem list_worktrees_run (env : GitEnv) (rc : Nat) (out : String)
    (hrun : env.run listCmd = .ok (rc, out))
    (hguard : vltb env.installed (2, 7, 6) = false) :
    list_worktrees env = ([listCmd], parse_worktree_lines (splitlines out)) := by
  have hfg : feature_guard listCmd env.installed = .ok () := by
    unfold feature_guard
    have hst : feature_guard_state listCmd = .ok ((2, 7, 6), "list", "command") := by
      decide
    rw [hst]
    simp [hguard]
  unfold list_worktrees run_command prepare_subprocess_args
  have hp : parse_flags "list" [("porcelain", some true)] = .ok ["--porcelain"] := by
    decide
  simp only [hp]
  have hcmd : (["git", "worktree", "list"] ++ ([] : List String) ++
      ["--porcelain"]) = listCmd := by decide
  rw [hcmd, hfg, hrun]

theorem mapE_from_list_err :
    ∀ l : List String, l.length % 3 ≠ 0 →
      mapE Worktree.from_list (chunks3 l) = .error .parseError
  | [], h => (h rfl).elim
  | [a], _ => rfl
  | [a, b], _ => rfl
  | a :: b :: c :: rest, h => by
    rw [show chunks3 (a :: b :: c :: rest) = [a, b, c] :: chunks3 rest from rfl]
    unfold mapE
    rw [show Worktree.from_list [a, b, c] = .ok ⟨a, b, c⟩ from rfl]
    rw [mapE_from_list_err rest (by
      simp only [List.length_cons] at h ⊢
      omega)]

theorem chunks3_join {α : Type} :
    ∀ gs : List (List α), (∀ g ∈ gs, g.length = 3) → chunks3 gs.flatten = gs := by
  intro gs
  induction gs with
  | nil => intro _; rfl
  | cons g rest ih =>
    intro hall
    obtain ⟨a, b, c, rfl⟩ :=
      List.length_eq_three.mp (hall _ (List.mem_cons_self _ _))
    show chunks3 (a :: b :: c :: rest.flatten) = [a, b, c] :: rest
    rw [show chunks3 (a :: b :: c :: rest.flatten) =
      [a, b, c] :: chunks3 rest.flatten from rfl]
    rw [ih (fun g2 h2 => hall g2 (List.mem_cons_of_mem _ h2))]

theorem mapE_from_list_ok3 :
    ∀ gs : List (List String), (∀ g ∈ gs, g.length = 3) →
      mapE Worktree.from_list (gs.map (List.map lastToken)) =
        .ok (gs.map specRecord) := by
  intro gs
  induction gs with
  | nil => intro _; rfl
  | cons g rest ih =>
    intro hall
    obtain ⟨a, b, c, rfl⟩ :=
      List.length_eq_three.mp (hall _ (List.mem_cons_self _ _))
    simp only [List.map_cons, List.map_nil]
    unfold mapE
    rw [show Worktree.from_list [lastToken a, lastToken b, lastToken c] =
      .ok ⟨lastToken a, lastToken b, lastToken c⟩ from rfl]
    rw [ih (fun g2 h2 => hall g2 (List.mem_cons_of_mem _ h2))]
    rfl

theorem filter_blank_join :
    ∀ gs : List (List String), (∀ g ∈ gs, ∀ l ∈ g, l ≠ "") →
      ((gs.map (fun g => g ++ [""])).flatten).filter (fun x => x ≠ "") = gs.flatten := by
  intro gs
  induction gs with
  | nil => intro _; rfl
  | cons g rest ih =>
    intro hall
    simp only [List.map_cons, List.flatten_cons, List.filter_append]
    rw [ih (fun g2 h2 l hl => hall g2 (List.mem_cons_of_mem _ h2) l hl)]
    have h1 : g.filter (fun x => x ≠ "") = g := by
      rw [List.filter_eq_self]
      intro a ha
      simp [hall g (List.mem_cons_self _ _) a ha]
    have h2 : ([""] : List String).filter (fun x => x ≠ "") = [] := rfl
    rw [h1, h2, List.append_nil]

theorem sum_len_three :
    ∀ gs : List (List String), (∀ g ∈ gs, g.length = 3) →
      gs.flatten.length = 3 * gs.length := by
  intro gs
  induction gs with
  | nil => intro _; rfl
  | cons g rest ih =>
    intro hall
    simp only [List.flatten_cons, List.length_append, List.length_cons]
    rw [ih (fun g2 h2 => hall g2 (List.mem_cons_of_mem _ h2)),
      hall g (List.mem_cons_self _ _)]
    ring

/-- Claim C6 as amended: (well-formed direction) a listing output of N
well-formed three-line record groups separated by blank lines with a
trailing blank line parses to exactly N worktree records in the original
listing order; (malformed direction) when exactly one group decomposes into
two or four data items and every other group into three, the parse raises
the modelled ParseError.  (As stated, the claim's malformed direction is
false when several malformed groups restore a multiple-of-three total item
count — see the counterexample.) -/
theorem list_worktrees_parse_groups :
    (∀ (env : GitEnv) (rc : Nat) (out : String) (gs : List (List String)),
      env.run listCmd = .ok (rc, out) →
      splitlines out = (gs.map (fun g => g ++ [""])).flatten →
      vltb env.installed (2, 7, 6) = false →
      (∀ g ∈ gs, g.length = 3 ∧ ∀ l ∈ g, l ≠ "") →
      list_worktrees env = ([listCmd], .ok (gs.map specRecord))) ∧
    (∀ (env : GitEnv) (rc : Nat) (out : String)
        (pre post : List (List String)) (bad : List String),
      env.run listCmd = .ok (rc, out) →
      splitlines out = ((pre ++ bad :: post).map (fun g => g ++ [""])).flatten →
      vltb env.installed (2, 7, 6) = false →
      (∀ g ∈ pre ++ post, g.length = 3) →
      (∀ g ∈ pre ++ bad :: post, ∀ l ∈ g, l ≠ "") →
      (bad.length = 2 ∨ bad.length = 4) →
      list_worktrees env = ([listCmd], .error .parseError)) := by
  constructor
  · intro env rc out gs hrun hsplit hguard hgs
    rw [list_worktrees_run env rc out hrun hguard, hsplit]
    simp only [parse_worktree_lines]
    rw [filter_blank_join gs (fun g hg => (hgs g hg).2)]
    rw [List.map_flatten]
    rw [chunks3_join (gs.map (List.map lastToken)) (by
      intro g2 hg2
      obtain ⟨g, hg, rfl⟩ := List.mem_map.mp hg2
      rw [List.length_map]
      exact (hgs g hg).1)]
    rw [mapE_from_list_ok3 gs (fun g hg => (hgs g hg).1)]
  · intro env rc out pre post bad hrun hsplit hguard h3 hne hbad
    rw [list_worktrees_run env rc out hrun hguard, hsplit]
    simp only [parse_worktree_lines]
    rw [filter_blank_join _ hne]
    rw [show ([listCmd], Except.error Err.parseError) =
      (([listCmd], Except.error Err.parseError) :
        Trace × Except Err (List Worktree)) from rfl]
    have hlen : ((pre ++ bad :: post).flatten.map lastToken).length % 3 ≠ 0 := by
      rw [List.length_map]
      rw [show (pre ++ bad :: post).flatten =
        pre.flatten ++ (bad ++ post.flatten) from by
        rw [List.flatten_append, List.flatten_cons]]
      simp only [List.length_append]
      rw [sum_len_three pre (fun g hg => h3 g (List.mem_append.mpr (Or.inl hg)))]
      rw [sum_len_three post (fun g hg => h3 g (List.mem_append.mpr (Or.inr hg)))]
      rcases hbad with hb | hb <;> rw [hb] <;> omega
    rw [mapE_from_list_err _ hlen]

/-- Counterexample to the malformed direction of claim C6 as stated: the
listing `outMalformed` has a group of four data lines followed by a group of
two, so "some group decomposes into two or four data items", yet the parse
raises no ParseError at all — the flat data realigns into two bogus
records. -/
theorem list_worktrees_malformed_counterexample :
    splitlines outMalformed =
      ["worktree /tmp/a", "HEAD 1111111", "branch refs/heads/x", "locked", "",
       "worktree /tmp/b", "HEAD 2222222", ""] ∧
    list_worktrees envMalformed =
      ([listCmd], .ok [⟨"/tmp/a", "1111111", "refs/heads/x"⟩,
                       ⟨"locked", "/tmp/b", "2222222"⟩]) := by
  refine ⟨by decide, by decide⟩

/-- Witness for C6 (amended): the two-record listing of `envCase` parses to
its two records in order, and the single two-line group of `envOneBad`
raises the ParseError. -/
theorem list_worktrees_parse_groups_witness :
    list_worktrees envCase = ([listCmd], .ok wtsCase) ∧
    list_worktrees envOneBad = ([listCmd], .error .parseError) := by
  constructor
  · have h := list_worktrees_parse_groups.1 envCase 0
      ("worktree /w/b\nHEAD def456\nbranch refs/heads/Feature-x\n\n" ++
       "worktree /w/a\nHEAD abc123\nbranch refs/heads/feature-x\n\n")
      [["worktree /w/b", "HEAD def456", "branch refs/heads/Feature-x"],
       ["worktree /w/a", "HEAD abc123", "branch refs/heads/feature-x"]]
      (by decide) (by decide) (by decide) (by decide)
    rw [h]
    decide
  · exact list_worktrees_parse_groups.2 envOneBad 0
      "worktree /tmp/a\nHEAD 1111111\n\n"
      [] [] ["worktree /tmp/a", "HEAD 1111111"]
      (by decide) (by decide) (by decide) (by decide) (by decide) (by decide)

/-! ## Claims C8 and C9 -/

/-- The listing helper performs at most the single listing invocation. -/
theorem list_worktrees_trace (env : GitEnv) :
    (list_worktrees env).1 = [] ∨ (list_worktrees env).1 = [listCmd] := by
  unfold list_worktrees run_command prepare_subprocess_args
  have hp : parse_flags "list" [("porcelain", some true)] = .ok ["--porcelain"] := by
    decide
  simp only [hp]
  have hcmd : (["git", "worktree", "list"] ++ ([] : List String) ++
      ["--porcelain"]) = listCmd := by decide
  rw [hcmd]
  cases hfg : feature_guard listCmd env.installed with
  | error e => simp
  | ok u =>
    cases u
    cases hrun : env.run listCmd with
    | error e => simp
    | ok pair =>
      rcases pair with ⟨rc2, out⟩
      simp

/-- `get_worktree_by_attr` performs at most the single listing invocation. -/
theorem get_worktree_by_attr_trace (env : GitEnv) (attr : WtAttr)
    (value : String) :
    (get_worktree_by_attr env attr value).1 = [] ∨
    (get_worktree_by_attr env attr value).1 = [listCmd] := by
  unfold get_worktree_by_attr
  rcases hl : list_worktrees env with ⟨t, r⟩
  have ht := list_worktrees_trace env
  rw [hl] at ht
  cases r with
  | error e => simpa using ht
  | ok wts => simpa using ht

/-- Under `force`, `add_worktree` skips the duplicate query and its first
external invocation is the `git worktree add` command itself (with the
selected destination, the resolved ref, and the parsed flags), provided the
version guard admits that command. -/
theorem add_worktree_force_trace
    (env : GitEnv) (ci : String) (dest : Option String)
    (checkout lock rc : Bool) (fl : List String)
    (hmain : env.isMain env.currentFolder = true)
    (hfl : parse_flags "add" [("force", some true), ("checkout", some checkout),
      ("lock", some lock)] = .ok fl)
    (hguard : feature_guard (["git", "worktree", "add", destSel env dest ci,
      (env.resolveRef ci rc).1] ++ fl) env.installed = .ok ()) :
    (add_worktree env ci dest true checkout lock rc).1.head? =
      some (["git", "worktree", "add", destSel env dest ci,
        (env.resolveRef ci rc).1] ++ fl) := by
  unfold add_worktree run_command prepare_subprocess_args
  simp only [hmain, not_true, if_false, hfl]
  simp only [List.cons_append, List.nil_append] at hguard ⊢
  rw [hguard]
  cases hrun : env.run ("git" :: "worktree" :: "add" :: destSel env dest ci ::
      (env.resolveRef ci rc).1 :: fl) with
  | error e =>
    cases e with
    | gitError msg =>
      rcases hg : get_worktree_by_attr env .root (destSel env dest ci) with ⟨t3, r3⟩
      cases r3 with
      | error e2 => simp [git_worktree_context, hg]
      | ok o =>
        cases o with
        | none => simp [git_worktree_context, hg]
        | some wt => simp [git_worktree_context, hg]
    | keyError => simp [git_worktree_context]
    | valueError => simp [git_worktree_context]
    | assertionError msg => simp [git_worktree_context]
    | parseError => simp [git_worktree_context]
  | ok pair =>
    rcases hg : get_worktree_by_attr env .root (destSel env dest ci) with ⟨t3, r3⟩
    cases r3 with
    | error e2 => simp [git_worktree_context, hg]
    | ok o =>
      cases o with
      | none => simp [git_worktree_context, hg]
      | some wt => simp [git_worktree_context, hg]

/-- Claim C8: with `force=false`, when the resolved (ref, refType) already
matches an existing worktree, `add_worktree` fails with the duplicate
GitError whose message names the ref type and suggests forcing, and the
only external invocations performed are listing queries (no create
invocation); with `force=true` the duplicate check is skipped and the
create invocation proceeds. -/
theorem add_worktree_duplicate_guard
    (env : GitEnv) (ci : String) (dest : Option String)
    (checkout lock rc : Bool)
    (hmain : env.isMain env.currentFolder = true) :
    (∀ t wt, get_worktree_by_attr env (env.resolveRef ci rc).2
        (env.resolveRef ci rc).1 = (t, .ok (some wt)) →
      add_worktree env ci dest false checkout lock rc =
        (t, .error (.gitError
          (dupMsg (attrToString (env.resolveRef ci rc).2) ci))) ∧
      ∀ c ∈ t, c = listCmd) ∧
    (∀ fl, parse_flags "add" [("force", some true), ("checkout", some checkout),
        ("lock", some lock)] = .ok fl →
      feature_guard (["git", "worktree", "add", destSel env dest ci,
        (env.resolveRef ci rc).1] ++ fl) env.installed = .ok () →
      (add_worktree env ci dest true checkout lock rc).1.head? =
        some (["git", "worktree", "add", destSel env dest ci,
          (env.resolveRef ci rc).1] ++ fl)) := by
  constructor
  · intro t wt h
    constructor
    · unfold add_worktree
      simp only [hmain, not_true, if_false, Bool.false_eq_true, h]
    · intro c hc
      have ht : t = (get_worktree_by_attr env (env.resolveRef ci rc).2
          (env.resolveRef ci rc).1).1 := by rw [h]
      rcases get_worktree_by_attr_trace env (env.resolveRef ci rc).2
          (env.resolveRef ci rc).1 with he | he
      · rw [ht, he] at hc
        cases hc
      · rw [ht, he] at hc
        simpa using hc
  · intro fl hfl hguard
    exact add_worktree_force_trace env ci dest checkout lock rc fl hmain hfl hguard

/-- Witness for C8: against `envSwallow` (branch `main` already checked
out), a non-forced create for `main` raises the duplicate GitError after
only the listing query, while a forced create for `feature` proceeds to the
`git worktree add` invocation. -/
theorem add_worktree_duplicate_guard_witness :
    (add_worktree envSwallow "main" none false true false false =
      ([listCmd], .error (.gitError (dupMsg "branch" "main"))) ∧
     ∀ c ∈ [listCmd], c = listCmd) ∧
    (add_worktree envSwallow "feature" none true true false false).1.head? =
      some ["git", "worktree", "add", "/tmp/repo/repo@feature", "feature", "-f"] := by
  constructor
  · exact (add_worktree_duplicate_guard envSwallow "main" none true false false
      (by decide)).1 [listCmd] ⟨"/tmp/repo2", "0123abc", "refs/heads/main"⟩
      (by decide)
  · have h := (add_worktree_duplicate_guard envSwallow "feature" none true false
      false (by decide)).2 ["-f"] (by decide) (by decide)
    rw [h]
    decide

/-- Claim C9: when the destination is omitted, the destination actually
used by `add_worktree` is `<repository-name>@<commitIsh with every slash
replaced by a dash>`, placed under the parent of the current checkout when
the configuration flag is set and under the current checkout itself
otherwise — a function of only the commit-ish, the current checkout path
and the flag — and the create invocation carries exactly that token. -/
theorem add_worktree_default_destination
    (env : GitEnv) (ci : String) (checkout lock rc : Bool) (fl : List String)
    (hmain : env.isMain env.currentFolder = true)
    (hfl : parse_flags "add" [("force", some true), ("checkout", some checkout),
      ("lock", some lock)] = .ok fl)
    (hguard : feature_guard (["git", "worktree", "add",
        destFormula env.create_in_parent env.currentFolder ci,
        (env.resolveRef ci rc).1] ++ fl) env.installed = .ok ()) :
    destSel env none ci = destFormula env.create_in_parent env.currentFolder ci ∧
    (add_worktree env ci none true checkout lock rc).1.head? =
      some (["git", "worktree", "add",
        destFormula env.create_in_parent env.currentFolder ci,
        (env.resolveRef ci rc).1] ++ fl) := by
  have hd : destSel env none ci =
      destFormula env.create_in_parent env.currentFolder ci := rfl
  refine ⟨hd, ?_⟩
  have hguard2 : feature_guard (["git", "worktree", "add", destSel env none ci,
      (env.resolveRef ci rc).1] ++ fl) env.installed = .ok () := by
    rw [hd]
    exact hguard
  have h := add_worktree_force_trace env ci none checkout lock rc fl hmain hfl
    hguard2
  rw [hd] at h
  exact h

/-- Witness for C9: with the configuration flag unset and the current
checkout at `/tmp/repo`, an omitted destination for `feature/x` synthesizes
`/tmp/repo/repo@feature-x`, and the forced create invocation carries it. -/
theorem add_worktree_default_destination_witness :
    destSel envSwallow none "feature/x" = "/tmp/repo/repo@feature-x" ∧
    (add_worktree envSwallow "feature/x" none true true false false).1.head? =
      some ["git", "worktree", "add", "/tmp/repo/repo@feature-x",
        "feature/x", "-f"] := by
  have h := add_worktree_default_destination envSwallow "feature/x" true false
    false ["-f"] (by decide) (by decide) (by decide)
  constructor
  · rw [h.1]
    decide
  · rw [h.2]
    decide
